import Mathlib

/-!
Verification of the eoscpp cubic-equation-of-state library.

This file is a shallow embedding of the C++ sources:
  * `include/eos/roots.hpp` — Cardano cubic root solver (`roots`,
    `num_of_real_roots`, `real_roots`);
  * `include/eos/flash.hpp` — vapor-pressure flash solver (`flash`,
    `vapor_pressure`);
  * `include/eos/cubic_eos/cubic_eos_base.hpp` — critical/reduced
    parameter computations (`cubic_eos_crtp_base`, `set_params`);
  * `include/eos/cubic_eos/van_der_waals_eos.hpp` and
    `peng_robinson_eos.hpp` — the two concrete EOS kinds.

`double` arithmetic is embedded as exact real arithmetic (ℝ) and
`std::complex<double>` as ℂ.  `std::sqrt` and `std::pow` on complex
arguments are `exp((1/2 or 1/3) * clog z)`; away from the negative real
axis this is the principal branch, `Complex.cpow`.  On the negative real
axis the C99 Annex G `clog` distinguishes the sign of the zero imaginary
part: `+0.0` gives argument `+π` (the principal branch again) and `-0.0`
gives `-π` (the conjugate of the principal branch at the conjugated
operand).  The operand of `u1`, `-q + s`, carries `+s.imag()` (so `+0.0`
when `s` is real) and is embedded as plain `cpow`; the operand of `u2`,
`-q - s` (a `double` minus a `std::complex`), carries `-s.imag()` (so
`-0.0` when `s` is real) and is embedded through conjugation, see
`cardano_u2`.  Decimal literals of the source (such as the `sqrt3`
constant `1.7320508075688772935` in `roots.hpp`) are kept as the exact
rational literals written in the source.
-/

open Classical

noncomputable section

/-! ## Cardano root solver (`roots.hpp`) -/

/-- Source `roots.hpp`: `p = (3 * a[1] - a[0] * a[0]) / 9`. -/
def cardano_p (a0 a1 : ℝ) : ℝ := (3 * a1 - a0 * a0) / 9

/-- Source `roots.hpp`: `q = (27 * a[2] + a[0] * (2 * a[0] * a[0] - 9 * a[1])) / 54`. -/
def cardano_q (a0 a1 a2 : ℝ) : ℝ := (27 * a2 + a0 * (2 * a0 * a0 - 9 * a1)) / 54

/-- Source `roots.hpp`: `disc = p * p * p + q * q`. -/
def cardano_disc (a0 a1 a2 : ℝ) : ℝ :=
  cardano_p a0 a1 * cardano_p a0 a1 * cardano_p a0 a1 +
    cardano_q a0 a1 a2 * cardano_q a0 a1 a2

/-- Source `roots.hpp`: `s = sqrt(std::complex<T>(disc, 0))`, the principal
complex square root, i.e. `cpow` with exponent 1/2. -/
def cardano_s (a0 a1 a2 : ℝ) : ℂ :=
  ((cardano_disc a0 a1 a2 : ℝ) : ℂ) ^ (((1 : ℝ) / 2 : ℝ) : ℂ)

/-- Source `roots.hpp`: `u1 = pow(-q + s, 1.0 / 3.0)` (principal branch). -/
def cardano_u1 (a0 a1 a2 : ℝ) : ℂ :=
  (((-cardano_q a0 a1 a2 : ℝ) : ℂ) + cardano_s a0 a1 a2) ^ (((1 : ℝ) / 3 : ℝ) : ℂ)

/-- Source `roots.hpp`: `u2 = pow(-q - s, 1.0 / 3.0)`.  The operand is a
`double` minus a `std::complex`: its imaginary part is `-(s.imag())`, which
is `-0.0` whenever `s` is real (IEEE signed zero).  On the negative real
axis `clog` then takes the argument `-π`, i.e. the side of the branch cut
below the axis, which is the complex conjugate of the principal branch at
the conjugated operand; elsewhere conjugating twice is the identity on the
principal branch.  Since `s` always has a nonnegative imaginary part
(`sqrt` of `(disc, +0.0)`), `pow(-q - s, 1.0/3.0)` equals
`conj(cpow(conj(-q - s), 1/3))` at every reachable operand, which is how it
is embedded here. -/
def cardano_u2 (a0 a1 a2 : ℝ) : ℂ :=
  (starRingEnd ℂ)
    (((starRingEnd ℂ) (((-cardano_q a0 a1 a2 : ℝ) : ℂ) - cardano_s a0 a1 a2)) ^
      (((1 : ℝ) / 3 : ℝ) : ℂ))

/-- Source `roots.hpp`: `constexpr double sqrt3 = 1.7320508075688772935;`.
This is the decimal literal of the source, slightly below the real √3. -/
def sqrt3 : ℝ := 1.7320508075688772935

/-- Source `roots.hpp`: `w1 = std::complex<T>(-0.5, sqrt3 / 2)`. -/
def cardano_w1 : ℂ := ((-0.5 : ℝ) : ℂ) + ((sqrt3 / 2 : ℝ) : ℂ) * Complex.I

/-- Source `roots.hpp`: `w2 = std::complex<T>(-0.5, -sqrt3 / 2)`. -/
def cardano_w2 : ℂ := ((-0.5 : ℝ) : ℂ) + ((-(sqrt3 / 2) : ℝ) : ℂ) * Complex.I

/-- Source `roots.hpp` `roots`: the three Cardano roots
`{u1 + u2 - a[0]/3, w1 u1 + w2 u2 - a[0]/3, w2 u1 + w1 u2 - a[0]/3}`,
in this order. -/
def roots (a0 a1 a2 : ℝ) : List ℂ :=
  [cardano_u1 a0 a1 a2 + cardano_u2 a0 a1 a2 - ((a0 / 3 : ℝ) : ℂ),
   cardano_w1 * cardano_u1 a0 a1 a2 + cardano_w2 * cardano_u2 a0 a1 a2 - ((a0 / 3 : ℝ) : ℂ),
   cardano_w2 * cardano_u1 a0 a1 a2 + cardano_w1 * cardano_u2 a0 a1 a2 - ((a0 / 3 : ℝ) : ℂ)]

/-- Source `roots.hpp` `real_roots` loop body: for each computed complex root
`xi` in order, keep `xi.real()` exactly when `fabs(xi.imag()) < 1e-10`. -/
def keep_reals : List ℂ → List ℝ
  | [] => []
  | z :: zs => if |z.im| < 1e-10 then z.re :: keep_reals zs else keep_reals zs

/-- Source `roots.hpp` `real_roots`: filter the three Cardano roots by the
imaginary-part tolerance `1e-10`, in insertion order. -/
def real_roots (a0 a1 a2 : ℝ) : List ℝ := keep_reals (roots a0 a1 a2)

/-- Source `roots.hpp` `num_of_real_roots`: classification by the sign of
`det = p³ + q²` with the exact branch structure of the source. -/
def num_of_real_roots (a0 a1 a2 : ℝ) : ℤ :=
  let p := (3 * a1 - a0 * a0) / 9
  let q := (27 * a2 + a0 * (2 * a0 * a0 - 9 * a1)) / 54
  let det := p * p * p + q * q
  if det = 0 then (if p = 0 then 1 else 2) else (if det > 0 then 3 else 1)

/-! ## Cubic EOS base (`cubic_eos_base.hpp`)

The C++ class `cubic_eos_crtp_base<Derived>` carries the static constants
`omega_a`, `omega_b` of the derived kind and the global gas constant `R`
(from `thermodynamic_constants.hpp`, outside the provided sources), plus the
mutable fields `pc_, tc_, ac_, bc_`.  The constants are embedded as fields
of the state record, so one record value corresponds to one instantiated
C++ object. -/

structure cubic_eos_crtp_base where
  omega_a : ℝ
  omega_b : ℝ
  R : ℝ
  pc : ℝ
  tc : ℝ
  ac : ℝ
  bc : ℝ

/-- Source `cubic_eos_base.hpp`: `(omega_a * R * R) * tc * tc / pc`. -/
def critical_attraction_param (omega_a R pc tc : ℝ) : ℝ :=
  (omega_a * R * R) * tc * tc / pc

/-- Source `cubic_eos_base.hpp`: `(omega_b * R) * tc / pc`. -/
def critical_repulsion_param (omega_b R pc tc : ℝ) : ℝ :=
  (omega_b * R) * tc / pc

/-- Source `cubic_eos_base.hpp` `set_params`: assigns `pc_, tc_` and
recomputes `ac_, bc_` from the new critical constants. -/
def set_params (e : cubic_eos_crtp_base) (pc tc : ℝ) : cubic_eos_crtp_base :=
  { e with
    pc := pc
    tc := tc
    ac := critical_attraction_param e.omega_a e.R pc tc
    bc := critical_repulsion_param e.omega_b e.R pc tc }

/-- Source `cubic_eos_base.hpp`: `reduced_pressure(p) = p / pc_`. -/
def reduced_pressure (e : cubic_eos_crtp_base) (p : ℝ) : ℝ := p / e.pc

/-- Source `cubic_eos_base.hpp`: `reduced_temperature(t) = t / tc_`. -/
def reduced_temperature (e : cubic_eos_crtp_base) (t : ℝ) : ℝ := t / e.tc

/-! ## EOS kinds (`van_der_waals_eos.hpp`, `peng_robinson_eos.hpp`) -/

/-- The coefficient triple of `x³ + a x² + b x + c = 0` returned by
`zfactor_cubic_eq` (the `cubic_equation` value type of `math/cubic_equation.hpp`,
whose header is outside the provided sources; it is a plain record of the
three coefficients, as used by both kinds). -/
structure cubic_equation where
  a : ℝ
  b : ℝ
  c : ℝ

/-- Source `van_der_waals_eos.hpp` `zfactor_cubic_eq`: `{-b - 1, a, -a * b}`. -/
def vdw_zfactor_cubic_eq (a b : ℝ) : cubic_equation :=
  ⟨-b - 1, a, -a * b⟩

/-- Source `peng_robinson_eos.hpp` `zfactor_cubic_eq`:
`{b - 1, a - (3 * b + 2) * b, (-a + b + b * b) * b}`. -/
def pr_zfactor_cubic_eq (a b : ℝ) : cubic_equation :=
  ⟨b - 1, a - (3 * b + 2) * b, (-a + b + b * b) * b⟩

/-- Source `peng_robinson_eos.hpp` `m(omega)`:
`0.3796 + omega * (1.485 - omega * (0.1644 - 0.01667 * omega))`. -/
def pr_m (omega : ℝ) : ℝ :=
  0.3796 + omega * (1.485 - omega * (0.1644 - 0.01667 * omega))

/-- Source `peng_robinson_eos.hpp` `alpha(tr)` with member `m_`:
`a = 1 + m_ * (1 - sqrt(tr)); return a * a`. -/
def pr_alpha (m tr : ℝ) : ℝ :=
  (1 + m * (1 - Real.sqrt tr)) * (1 + m * (1 - Real.sqrt tr))

/-! ## Flash solver (`flash.hpp`)

`flash<Eos>` is a template; the `Eos` parameter is used only through
`eos_.state(p, t).zfactor()` and `state.fugacity_coeff(z)`.  That interface
is embedded as a record of two functions (the isobaric-isothermal state is
ephemeral, so `fugacity_coeff` takes the `(p, t)` that created it plus the
chosen root `z`). -/

structure eos_model where
  zfactor : ℝ → ℝ → List ℝ
  fugacity_coeff : ℝ → ℝ → ℝ → ℝ

/-- Source `flash.hpp` `error_code`. -/
inductive error_code where
  | success
  | max_iter_reached
  | multiple_roots_not_found
deriving DecidableEq

/-- Source `flash.hpp` `iter_report`: relative residual, iteration count and
error code. -/
structure iter_report where
  rsd : ℝ
  iter : ℤ
  error : error_code
deriving DecidableEq

/-- Source `flash.hpp` `flash`: the stored EOS, tolerance `tol_` and maximum
iteration count `max_iter_` (a C++ `int`, hence ℤ). -/
structure flash where
  eos : eos_model
  tol : ℝ
  max_iter : ℤ

/-- Value of `*std::max_element(z.begin(), z.end())` for a nonempty list. -/
def list_max : List ℝ → ℝ
  | [] => 0
  | x :: xs => xs.foldl max x

/-- Value of `*std::min_element(z.begin(), z.end())` for a nonempty list. -/
def list_min : List ℝ → ℝ
  | [] => 0
  | x :: xs => xs.foldl min x

/-- The successive-substitution factor `phi_liq / phi_vap` of one iteration of
`flash::vapor_pressure` at pressure `p`: fugacity coefficients evaluated at
`z_liq = min(Root Set)` and `z_vap = max(Root Set)`. -/
def vp_ratio (f : flash) (p t : ℝ) : ℝ :=
  f.eos.fugacity_coeff p t (list_min (f.eos.zfactor p t)) /
    f.eos.fugacity_coeff p t (list_max (f.eos.zfactor p t))

/-- Source `flash.hpp` `vapor_pressure` while-loop, as a recursion on the loop
state `(p, eps, iter)`.  The loop runs while `eps > tol_ && iter < max_iter_`;
inside, if the Z-factor root set has fewer than 2 entries it returns pressure 0
with `multiple_roots_not_found`; otherwise it updates
`eps = |1 - phi_liq/phi_vap|`, `p *= phi_liq/phi_vap`, `++iter`.  After the
loop, `iter >= max_iter_` returns pressure 0 with `max_iter_reached`, else the
current pressure with `success`. -/
def vp_loop (f : flash) (t : ℝ) (p eps : ℝ) (iter : ℤ) : ℝ × iter_report :=
  if h : f.tol < eps ∧ iter < f.max_iter then
    if (f.eos.zfactor p t).length < 2 then
      (0, ⟨eps, iter, error_code.multiple_roots_not_found⟩)
    else
      vp_loop f t (p * vp_ratio f p t) |1 - vp_ratio f p t| (iter + 1)
  else if f.max_iter ≤ iter then
    (0, ⟨eps, iter, error_code.max_iter_reached⟩)
  else
    (p, ⟨eps, iter, error_code.success⟩)
termination_by (f.max_iter - iter).toNat
decreasing_by
  omega

/-- Source `flash.hpp` `vapor_pressure(p_init, t)`: initialize
`p = p_init`, `eps = 1`, `iter = 0` and run the loop. -/
def vapor_pressure (f : flash) (p_init t : ℝ) : ℝ × iter_report :=
  vp_loop f t p_init 1 0

end

/-! ## Claims about the EOS kinds and the base class -/

/-- C5: `num_of_real_roots`, with `p = (3b - a²)/9`,
`q = (27c + a(2a² - 9b))/54` and `disc = p³ + q²`, returns 1 when
`disc = 0` and `p = 0`, returns 2 when `disc = 0` and `p ≠ 0`, and
returns 3 when `disc > 0`. -/
theorem num_of_real_roots_classification (a b c : ℝ) :
    (cardano_disc a b c = 0 → cardano_p a b = 0 → num_of_real_roots a b c = 1) ∧
    (cardano_disc a b c = 0 → cardano_p a b ≠ 0 → num_of_real_roots a b c = 2) ∧
    (cardano_disc a b c > 0 → num_of_real_roots a b c = 3) := by
  unfold num_of_real_roots cardano_disc cardano_p cardano_q
  refine ⟨fun hd hp => ?_, fun hd hp => ?_, fun hd => ?_⟩
  · rw [if_pos hd, if_pos hp]
  · rw [if_pos hd, if_neg hp]
  · rw [if_neg (by exact ne_of_gt hd), if_pos hd]

/-- Witness for C5: at the triple-root cubic `x³ = 0` the discriminant and
`p` both vanish and the classifier returns 1. -/
theorem num_of_real_roots_classification_witness :
    cardano_disc 0 0 0 = 0 ∧ cardano_p 0 0 = 0 ∧ num_of_real_roots 0 0 0 = 1 := by
  have hd : cardano_disc 0 0 0 = 0 := by
    unfold cardano_disc cardano_p cardano_q; norm_num
  have hp : cardano_p 0 0 = 0 := by unfold cardano_p; norm_num
  exact ⟨hd, hp, (num_of_real_roots_classification 0 0 0).1 hd hp⟩

/-- C7: the Van der Waals kind's `zfactor_cubic_eq` returns the coefficients
`(A, B, C) = (-b - 1, a, -a b)` and the Peng-Robinson kind's
`zfactor_cubic_eq` returns `(A, B, C) = (b - 1, a - (3b + 2)b, (-a + b + b²)b)`. -/
theorem zfactor_cubic_eq_coeffs (a b : ℝ) :
    vdw_zfactor_cubic_eq a b = ⟨-b - 1, a, -(a * b)⟩ ∧
    pr_zfactor_cubic_eq a b = ⟨b - 1, a - (3 * b + 2) * b, (-a + b + b ^ 2) * b⟩ := by
  constructor
  · unfold vdw_zfactor_cubic_eq
    simp only [cubic_equation.mk.injEq]
    refine ⟨by ring_nf, by ring_nf, by ring_nf⟩
  · unfold pr_zfactor_cubic_eq
    simp only [cubic_equation.mk.injEq]
    refine ⟨by ring_nf, by ring_nf, by ring_nf⟩

/-- C8: for positive critical constants, after `set_params(pc, tc)` the
reduced pressure of `pc` and the reduced temperature of `tc` are both 1, and
the cached `ac`, `bc` equal the critical attraction/repulsion parameters
recomputed from the new `(pc, tc)`. -/
theorem set_params_reduced_props (e : cubic_eos_crtp_base) (pc tc : ℝ)
    (hpc : 0 < pc) (htc : 0 < tc) :
    reduced_pressure (set_params e pc tc) pc = 1 ∧
    reduced_temperature (set_params e pc tc) tc = 1 ∧
    (set_params e pc tc).ac = critical_attraction_param e.omega_a e.R pc tc ∧
    (set_params e pc tc).bc = critical_repulsion_param e.omega_b e.R pc tc := by
  refine ⟨?_, ?_, rfl, rfl⟩
  · unfold reduced_pressure set_params
    exact div_self (ne_of_gt hpc)
  · unfold reduced_temperature set_params
    exact div_self (ne_of_gt htc)

/-- Witness for C8: a concrete reconfiguration with `pc = 2`, `tc = 3`. -/
theorem set_params_reduced_props_witness :
    (0 : ℝ) < 2 ∧ (0 : ℝ) < 3 ∧
    reduced_pressure (set_params ⟨0.421875, 0.125, 8.31, 1, 1, 0, 0⟩ 2 3) 2 = 1 ∧
    reduced_temperature (set_params ⟨0.421875, 0.125, 8.31, 1, 1, 0, 0⟩ 2 3) 3 = 1 := by
  refine ⟨by norm_num, by norm_num, ?_, ?_⟩
  · exact (set_params_reduced_props ⟨0.421875, 0.125, 8.31, 1, 1, 0, 0⟩ 2 3
      (by norm_num) (by norm_num)).1
  · exact (set_params_reduced_props ⟨0.421875, 0.125, 8.31, 1, 1, 0, 0⟩ 2 3
      (by norm_num) (by norm_num)).2.1

/-- C9: for every acentric factor `omega`, the Peng-Robinson
temperature-correction multiplier `alpha(tr) = (1 + m(1 - √tr))²` with
`m = m(omega)` satisfies `alpha(1) = 1`. -/
theorem pr_alpha_at_tr_one (omega : ℝ) : pr_alpha (pr_m omega) 1 = 1 := by
  unfold pr_alpha
  rw [Real.sqrt_one]
  ring

/-! ## Claims about the flash solver -/

/-- Characterization of the three terminal outcomes of the flash loop, at any
loop state: the error is `success` exactly when the reported residual is at
most `tol` and the reported iteration count is below `max_iter`; the error is
`max_iter_reached` exactly when the reported iteration count is at least
`max_iter`; every non-`success` outcome returns pressure 0. -/
theorem vp_loop_spec (f : flash) (t : ℝ) :
    ∀ n : ℕ, ∀ p eps : ℝ, ∀ iter : ℤ, (f.max_iter - iter).toNat = n →
      (((vp_loop f t p eps iter).2.error = error_code.success ↔
          (vp_loop f t p eps iter).2.rsd ≤ f.tol ∧
            (vp_loop f t p eps iter).2.iter < f.max_iter) ∧
        ((vp_loop f t p eps iter).2.error = error_code.max_iter_reached ↔
          f.max_iter ≤ (vp_loop f t p eps iter).2.iter) ∧
        ((vp_loop f t p eps iter).2.error ≠ error_code.success →
          (vp_loop f t p eps iter).1 = 0)) := by
  intro n
  induction n using Nat.strong_induction_on with
  | _ n ih =>
    intro p eps iter hn
    rw [vp_loop]
    by_cases hcond : f.tol < eps ∧ iter < f.max_iter
    · rw [dif_pos hcond]
      by_cases hlen : (f.eos.zfactor p t).length < 2
      · rw [if_pos hlen]
        refine ⟨?_, ?_, ?_⟩
        · constructor
          · intro h; exact absurd h (by simp)
          · intro h; exact absurd h.1 (not_le.mpr hcond.1)
        · constructor
          · intro h; exact absurd h (by simp)
          · intro h; exact absurd (lt_of_lt_of_le hcond.2 h) (lt_irrefl iter)
        · intro _; rfl
      · rw [if_neg hlen]
        exact ih ((f.max_iter - (iter + 1)).toNat) (by omega) _ _ _ rfl
    · rw [dif_neg hcond]
      by_cases hge : f.max_iter ≤ iter
      · rw [if_pos hge]
        refine ⟨?_, ?_, ?_⟩
        · constructor
          · intro h; exact absurd h (by simp)
          · intro h; exact absurd (lt_of_lt_of_le h.2 hge) (lt_irrefl iter)
        · exact ⟨fun _ => hge, fun _ => rfl⟩
        · intro _; rfl
      · rw [if_neg hge]
        push_neg at hcond hge
        have heps : eps ≤ f.tol :=
          not_lt.mp (fun hlt => absurd (hcond hlt) (not_le.mpr hge))
        refine ⟨?_, ?_, ?_⟩
        · exact ⟨fun _ => ⟨heps, hge⟩, fun _ => rfl⟩
        · constructor
          · intro h; exact absurd h (by simp)
          · intro h; exact absurd (lt_of_lt_of_le hge h) (lt_irrefl iter)
        · intro h; exact absurd rfl h

/-- C3: `flash::vapor_pressure` returns status `success` exactly when the
relative residual reported falls to at most `tol` with the iteration count
still within the budget; it returns status `max_iter_reached` exactly when the
loop exits with `iter ≥ max_iter`, and every failure returns pressure 0
together with the final residual and iteration count carried in the report. -/
theorem vapor_pressure_status_characterization (f : flash) (p_init t : ℝ) :
    ((vapor_pressure f p_init t).2.error = error_code.success ↔
      (vapor_pressure f p_init t).2.rsd ≤ f.tol ∧
        (vapor_pressure f p_init t).2.iter < f.max_iter) ∧
    ((vapor_pressure f p_init t).2.error = error_code.max_iter_reached ↔
      f.max_iter ≤ (vapor_pressure f p_init t).2.iter) ∧
    ((vapor_pressure f p_init t).2.error ≠ error_code.success →
      (vapor_pressure f p_init t).1 = 0) :=
  vp_loop_spec f t (f.max_iter - 0).toNat p_init 1 0 rfl

/-- C4: at any iteration of the flash loop (residual still above `tol`,
iteration count still below `max_iter`), if the Z-factor root set computed
for the current pressure iterate has fewer than 2 entries, the loop
immediately returns pressure 0 together with status
`multiple_roots_not_found`, the current residual and the current iteration
count. -/
theorem vp_loop_multiple_roots_exit (f : flash) (t p eps : ℝ) (iter : ℤ)
    (h1 : f.tol < eps) (h2 : iter < f.max_iter)
    (h3 : (f.eos.zfactor p t).length < 2) :
    vp_loop f t p eps iter =
      (0, ⟨eps, iter, error_code.multiple_roots_not_found⟩) := by
  rw [vp_loop, dif_pos ⟨h1, h2⟩, if_pos h3]

/-- Witness for C4: an EOS whose root set is always empty makes the loop fail
immediately at the initial state. -/
theorem vp_loop_multiple_roots_exit_witness :
    ((⟨⟨fun _ _ => [], fun _ _ _ => 0⟩, 1e-6, 100⟩ : flash).tol < 1) ∧
    ((0 : ℤ) < (⟨⟨fun _ _ => [], fun _ _ _ => 0⟩, 1e-6, 100⟩ : flash).max_iter) ∧
    vp_loop ⟨⟨fun _ _ => [], fun _ _ _ => 0⟩, 1e-6, 100⟩ 1 1 1 0 =
      (0, ⟨1, 0, error_code.multiple_roots_not_found⟩) := by
  refine ⟨by norm_num, by norm_num, ?_⟩
  exact vp_loop_multiple_roots_exit ⟨⟨fun _ _ => [], fun _ _ _ => 0⟩, 1e-6, 100⟩
    1 1 1 0 (by norm_num) (by norm_num) (by simp)

/-- Counterexample to C10 as stated: a flash object with tolerance `1 ≥ 1` but
`max_iter = 0` does not return `success` with the initial pressure; the loop
body never runs and the post-loop check `iter ≥ max_iter` fires, returning
pressure 0 with `max_iter_reached`. -/
theorem vapor_pressure_tol_ge_one_zero_max_iter :
    vapor_pressure ⟨⟨fun _ _ => [], fun _ _ _ => 0⟩, 1, 0⟩ 2 3 =
      (0, ⟨1, 0, error_code.max_iter_reached⟩) := by
  unfold vapor_pressure
  rw [vp_loop, dif_neg (by norm_num), if_pos (le_refl 0)]

/-- C10 (amended): if the flash object's tolerance is at least 1 and its
`max_iter` is at least 1, then for every initial pressure and temperature,
`vapor_pressure` returns status `success` with pressure exactly `p_init`,
residual 1 and iteration count 0 — and the result does not depend on the EOS
(the EOS model `e` is arbitrary on the left and absent on the right), so the
EOS is never evaluated. -/
theorem vapor_pressure_large_tol_success (e : eos_model) (tol : ℝ) (mi : ℤ)
    (p_init t : ℝ) (htol : 1 ≤ tol) (hmi : 1 ≤ mi) :
    vapor_pressure ⟨e, tol, mi⟩ p_init t =
      (p_init, ⟨1, 0, error_code.success⟩) := by
  unfold vapor_pressure
  rw [vp_loop, dif_neg (fun hc => absurd hc.1 (not_lt.mpr htol)),
    if_neg (show ¬(mi ≤ (0 : ℤ)) by omega)]

/-- Witness for C10 (amended): tolerance 1 and the default `max_iter = 100`
return the initial pressure 2 unchanged with status `success`. -/
theorem vapor_pressure_large_tol_success_witness :
    (1 : ℝ) ≤ 1 ∧ (1 : ℤ) ≤ 100 ∧
    vapor_pressure ⟨⟨fun _ _ => [], fun _ _ _ => 0⟩, 1, 100⟩ 2 3 =
      (2, ⟨1, 0, error_code.success⟩) :=
  ⟨le_refl 1, by norm_num,
    vapor_pressure_large_tol_success ⟨fun _ _ => [], fun _ _ _ => 0⟩ 1 100 2 3
      (le_refl 1) (by norm_num)⟩

/-! ## Evaluation machinery for the principal complex power -/

/-- Principal complex power of a number given in polar form: for `r > 0` and
an argument `θ` in the principal range, `(r e^{iθ})^w = r^w e^{iwθ}`. -/
theorem cpow_polar (r θ w : ℝ) (hr : 0 < r) (h1 : -Real.pi < θ)
    (h2 : θ ≤ Real.pi) :
    ((r : ℂ) * (Complex.cos (θ : ℂ) + Complex.sin (θ : ℂ) * Complex.I)) ^
        ((w : ℝ) : ℂ) =
      ((r ^ w : ℝ) : ℂ) *
        (Complex.cos ((w * θ : ℝ) : ℂ) + Complex.sin ((w * θ : ℝ) : ℂ) * Complex.I) := by
  have habs : Complex.abs
      ((r : ℂ) * (Complex.cos (θ : ℂ) + Complex.sin (θ : ℂ) * Complex.I)) = r := by
    rw [map_mul, Complex.abs_ofReal, Complex.abs_cos_add_sin_mul_I, mul_one,
      abs_of_pos hr]
  have harg : Complex.arg
      ((r : ℂ) * (Complex.cos (θ : ℂ) + Complex.sin (θ : ℂ) * Complex.I)) = θ :=
    Complex.arg_mul_cos_add_sin_mul_I hr ⟨h1, h2⟩
  have hz : ((r : ℂ) * (Complex.cos (θ : ℂ) + Complex.sin (θ : ℂ) * Complex.I)) ≠ 0 := by
    intro h0
    rw [h0, map_zero] at habs
    exact absurd habs.symm (ne_of_gt hr)
  rw [Complex.cpow_def_of_ne_zero hz]
  have hlog : Complex.log
      ((r : ℂ) * (Complex.cos (θ : ℂ) + Complex.sin (θ : ℂ) * Complex.I)) =
      ((Real.log r : ℝ) : ℂ) + ((θ : ℝ) : ℂ) * Complex.I := by
    apply Complex.ext
    · simp [Complex.log_re, habs]
    · simp [Complex.log_im, harg]
  have hmul : (((Real.log r : ℝ) : ℂ) + ((θ : ℝ) : ℂ) * Complex.I) * ((w : ℝ) : ℂ) =
      ((Real.log r * w : ℝ) : ℂ) + ((w * θ : ℝ) : ℂ) * Complex.I := by
    push_cast
    ring
  rw [hlog, hmul, Complex.exp_add_mul_I, ← Complex.ofReal_exp,
    ← Real.rpow_def_of_pos hr w]

/-- Principal square root of a negative real: `(-x)^{1/2} = x^{1/2} i`. -/
theorem cpow_half_neg (x : ℝ) (hx : 0 < x) :
    ((-x : ℝ) : ℂ) ^ (((1 : ℝ) / 2 : ℝ) : ℂ) =
      ((x ^ ((1 : ℝ) / 2) : ℝ) : ℂ) * Complex.I := by
  have hb : ((-x : ℝ) : ℂ) =
      (x : ℂ) * (Complex.cos ((Real.pi : ℝ) : ℂ) + Complex.sin ((Real.pi : ℝ) : ℂ) * Complex.I) := by
    rw [← Complex.ofReal_cos, ← Complex.ofReal_sin, Real.cos_pi, Real.sin_pi]
    push_cast
    ring
  rw [hb, cpow_polar x Real.pi ((1 : ℝ) / 2) hx (by linarith [Real.pi_pos]) le_rfl,
    ← Complex.ofReal_cos, ← Complex.ofReal_sin,
    show (1 : ℝ) / 2 * Real.pi = Real.pi / 2 by ring,
    Real.cos_pi_div_two, Real.sin_pi_div_two]
  push_cast
  ring

/-- Principal cube root of a negative real:
`(-x)^{1/3} = x^{1/3} (1/2 + (√3/2) i)`. -/
theorem cpow_third_neg (x : ℝ) (hx : 0 < x) :
    ((-x : ℝ) : ℂ) ^ (((1 : ℝ) / 3 : ℝ) : ℂ) =
      ((x ^ ((1 : ℝ) / 3) : ℝ) : ℂ) *
        (((1 / 2 : ℝ) : ℂ) + ((Real.sqrt 3 / 2 : ℝ) : ℂ) * Complex.I) := by
  have hb : ((-x : ℝ) : ℂ) =
      (x : ℂ) * (Complex.cos ((Real.pi : ℝ) : ℂ) + Complex.sin ((Real.pi : ℝ) : ℂ) * Complex.I) := by
    rw [← Complex.ofReal_cos, ← Complex.ofReal_sin, Real.cos_pi, Real.sin_pi]
    push_cast
    ring
  rw [hb, cpow_polar x Real.pi ((1 : ℝ) / 3) hx (by linarith [Real.pi_pos]) le_rfl,
    ← Complex.ofReal_cos, ← Complex.ofReal_sin,
    show (1 : ℝ) / 3 * Real.pi = Real.pi / 3 by ring,
    Real.cos_pi_div_three, Real.sin_pi_div_three]

/-- Principal cube root of `x i` for `x > 0`:
`(x i)^{1/3} = x^{1/3} (√3/2 + (1/2) i)`. -/
theorem cpow_third_I_pos (x : ℝ) (hx : 0 < x) :
    (((x : ℝ) : ℂ) * Complex.I) ^ (((1 : ℝ) / 3 : ℝ) : ℂ) =
      ((x ^ ((1 : ℝ) / 3) : ℝ) : ℂ) *
        (((Real.sqrt 3 / 2 : ℝ) : ℂ) + ((1 / 2 : ℝ) : ℂ) * Complex.I) := by
  have hb : (((x : ℝ) : ℂ) * Complex.I) =
      (x : ℂ) * (Complex.cos ((Real.pi / 2 : ℝ) : ℂ) + Complex.sin ((Real.pi / 2 : ℝ) : ℂ) * Complex.I) := by
    rw [← Complex.ofReal_cos, ← Complex.ofReal_sin, Real.cos_pi_div_two, Real.sin_pi_div_two]
    push_cast
    ring
  rw [hb, cpow_polar x (Real.pi / 2) ((1 : ℝ) / 3) hx (by linarith [Real.pi_pos])
      (by linarith [Real.pi_pos]),
    ← Complex.ofReal_cos, ← Complex.ofReal_sin,
    show (1 : ℝ) / 3 * (Real.pi / 2) = Real.pi / 6 by ring,
    Real.cos_pi_div_six, Real.sin_pi_div_six]

/-- Conjugation of `a + b i` for real `a`, `b`. -/
theorem conj_ofReal_add_ofReal_mul_I (x y : ℝ) :
    (starRingEnd ℂ) (((x : ℝ) : ℂ) + ((y : ℝ) : ℂ) * Complex.I) =
      ((x : ℝ) : ℂ) - ((y : ℝ) : ℂ) * Complex.I := by
  rw [map_add, map_mul, Complex.conj_ofReal, Complex.conj_ofReal, Complex.conj_I]
  ring

/-- Cube-then-cube-root cancellation for nonnegative reals. -/
theorem rpow_third_cube_eq (x : ℝ) (hx : 0 ≤ x) :
    (x ^ (3 : ℕ)) ^ ((1 : ℝ) / 3) = x := by
  rw [← Real.rpow_natCast x 3, ← Real.rpow_mul hx]
  norm_num

/-- Cube-root upper bound from a cube upper bound. -/
theorem rpow_third_le_of_le_cube (x y : ℝ) (hx : 0 ≤ x) (hy : 0 ≤ y)
    (h : x ≤ y ^ (3 : ℕ)) : x ^ ((1 : ℝ) / 3) ≤ y := by
  have hb := Real.rpow_le_rpow hx h (by norm_num : (0 : ℝ) ≤ 1 / 3)
  rwa [rpow_third_cube_eq y hy] at hb

/-- Cube-root lower bound from a cube lower bound. -/
theorem le_rpow_third_of_cube_le (x y : ℝ) (hx : 0 ≤ x)
    (h : x ^ (3 : ℕ) ≤ y) : x ≤ y ^ ((1 : ℝ) / 3) := by
  have hb := Real.rpow_le_rpow (by positivity) h (by norm_num : (0 : ℝ) ≤ 1 / 3)
  rwa [rpow_third_cube_eq x hx] at hb

/-- Square-root upper bound from a square upper bound. -/
theorem sqrt_le_of_sq_ge (x y : ℝ) (hy : 0 ≤ y) (h : x ≤ y ^ 2) :
    Real.sqrt x ≤ y := by
  calc Real.sqrt x ≤ Real.sqrt (y ^ 2) := Real.sqrt_le_sqrt h
  _ = y := Real.sqrt_sq hy

/-- Square-root lower bound from a square lower bound. -/
theorem le_sqrt_of_sq_le (x y : ℝ) (hx : 0 ≤ x) (h : x ^ 2 ≤ y) :
    x ≤ Real.sqrt y := by
  calc x = Real.sqrt (x ^ 2) := (Real.sqrt_sq hx).symm
  _ ≤ Real.sqrt y := Real.sqrt_le_sqrt h

theorem one_le_sqrt_three : (1 : ℝ) ≤ Real.sqrt 3 :=
  le_sqrt_of_sq_le 1 3 (by norm_num) (by norm_num)

/-! ## Evaluation of the root solver on `x³ - x = (x + 1) x (x - 1)` -/

theorem cardano_p_c1 : cardano_p 0 (-1) = -(1 / 3) := by
  unfold cardano_p
  norm_num

theorem cardano_q_c1 : cardano_q 0 (-1) 0 = 0 := by
  unfold cardano_q
  norm_num

theorem cardano_disc_c1 : cardano_disc 0 (-1) 0 = -(1 / 27) := by
  unfold cardano_disc
  rw [cardano_p_c1, cardano_q_c1]
  norm_num

theorem cardano_s_c1 :
    cardano_s 0 (-1) 0 = (((1 / 27 : ℝ) ^ ((1 : ℝ) / 2) : ℝ) : ℂ) * Complex.I := by
  unfold cardano_s
  rw [cardano_disc_c1]
  exact cpow_half_neg (1 / 27) (by norm_num)

theorem cardano_u1_c1 :
    cardano_u1 0 (-1) 0 =
      ((((1 / 27 : ℝ) ^ ((1 : ℝ) / 2)) ^ ((1 : ℝ) / 3) : ℝ) : ℂ) *
        (((Real.sqrt 3 / 2 : ℝ) : ℂ) + ((1 / 2 : ℝ) : ℂ) * Complex.I) := by
  unfold cardano_u1
  rw [cardano_q_c1, cardano_s_c1, neg_zero, Complex.ofReal_zero, zero_add]
  exact cpow_third_I_pos _ (Real.rpow_pos_of_pos (by norm_num) _)

theorem cardano_u2_c1 :
    cardano_u2 0 (-1) 0 =
      ((((1 / 27 : ℝ) ^ ((1 : ℝ) / 2)) ^ ((1 : ℝ) / 3) : ℝ) : ℂ) *
        (((Real.sqrt 3 / 2 : ℝ) : ℂ) - ((1 / 2 : ℝ) : ℂ) * Complex.I) := by
  unfold cardano_u2
  rw [cardano_q_c1, cardano_s_c1, neg_zero, Complex.ofReal_zero, zero_sub,
    map_neg, map_mul, Complex.conj_ofReal, Complex.conj_I,
    show -((((1 / 27 : ℝ) ^ ((1 : ℝ) / 2) : ℝ) : ℂ) * -Complex.I) =
      (((1 / 27 : ℝ) ^ ((1 : ℝ) / 2) : ℝ) : ℂ) * Complex.I by ring,
    cpow_third_I_pos _ (Real.rpow_pos_of_pos (by norm_num) _), map_mul,
    Complex.conj_ofReal, conj_ofReal_add_ofReal_mul_I]

theorem rho_c1_mul_sqrt3 :
    (((1 / 27 : ℝ) ^ ((1 : ℝ) / 2)) ^ ((1 : ℝ) / 3)) * Real.sqrt 3 = 1 := by
  have h27 : (1 / 27 : ℝ) = (3 : ℝ) ^ (-3 : ℝ) := by
    rw [show (-3 : ℝ) = ((-3 : ℤ) : ℝ) by norm_num, Real.rpow_intCast]
    norm_num
  rw [h27, ← Real.rpow_mul (by norm_num : (0 : ℝ) ≤ 3),
    ← Real.rpow_mul (by norm_num : (0 : ℝ) ≤ 3), Real.sqrt_eq_rpow,
    ← Real.rpow_add (by norm_num : (0 : ℝ) < 3)]
  norm_num

theorem roots_c1 :
    roots 0 (-1) 0 =
      [((1 : ℝ) : ℂ),
       ((-(1 / 2) - sqrt3 * (((1 / 27 : ℝ) ^ ((1 : ℝ) / 2)) ^ ((1 : ℝ) / 3)) / 2 : ℝ) : ℂ),
       ((-(1 / 2) + sqrt3 * (((1 / 27 : ℝ) ^ ((1 : ℝ) / 2)) ^ ((1 : ℝ) / 3)) / 2 : ℝ) : ℂ)] := by
  have hρ := rho_c1_mul_sqrt3
  unfold roots cardano_w1 cardano_w2
  rw [cardano_u1_c1, cardano_u2_c1]
  simp only [List.cons.injEq, and_true]
  refine ⟨?_, ?_, ?_⟩
  · apply Complex.ext
    · simp only [Complex.add_re, Complex.sub_re, Complex.mul_re, Complex.mul_im,
        Complex.add_im, Complex.sub_im, Complex.ofReal_re, Complex.ofReal_im,
        Complex.I_re, Complex.I_im]
      ring_nf
      linear_combination hρ
    · simp only [Complex.add_re, Complex.sub_re, Complex.mul_re, Complex.mul_im,
        Complex.add_im, Complex.sub_im, Complex.ofReal_re, Complex.ofReal_im,
        Complex.I_re, Complex.I_im]
      ring
  · apply Complex.ext
    · simp only [Complex.add_re, Complex.sub_re, Complex.mul_re, Complex.mul_im,
        Complex.add_im, Complex.sub_im, Complex.ofReal_re, Complex.ofReal_im,
        Complex.I_re, Complex.I_im]
      ring_nf
      linear_combination (-(1 / 2 : ℝ)) * hρ
    · simp only [Complex.add_re, Complex.sub_re, Complex.mul_re, Complex.mul_im,
        Complex.add_im, Complex.sub_im, Complex.ofReal_re, Complex.ofReal_im,
        Complex.I_re, Complex.I_im]
      ring
  · apply Complex.ext
    · simp only [Complex.add_re, Complex.sub_re, Complex.mul_re, Complex.mul_im,
        Complex.add_im, Complex.sub_im, Complex.ofReal_re, Complex.ofReal_im,
        Complex.I_re, Complex.I_im]
      ring_nf
      linear_combination (-(1 / 2 : ℝ)) * hρ
    · simp only [Complex.add_re, Complex.sub_re, Complex.mul_re, Complex.mul_im,
        Complex.add_im, Complex.sub_im, Complex.ofReal_re, Complex.ofReal_im,
        Complex.I_re, Complex.I_im]
      ring

theorem real_roots_c1 :
    real_roots 0 (-1) 0 =
      [1, -(1 / 2) - sqrt3 * (((1 / 27 : ℝ) ^ ((1 : ℝ) / 2)) ^ ((1 : ℝ) / 3)) / 2,
       -(1 / 2) + sqrt3 * (((1 / 27 : ℝ) ^ ((1 : ℝ) / 2)) ^ ((1 : ℝ) / 3)) / 2] := by
  have him : ∀ x : ℝ, |((x : ℂ)).im| < 1e-10 := by
    intro x
    rw [Complex.ofReal_im, abs_zero]
    norm_num
  unfold real_roots
  rw [roots_c1]
  unfold keep_reals
  rw [if_pos (him _)]
  unfold keep_reals
  rw [if_pos (him _)]
  unfold keep_reals
  rw [if_pos (him _)]
  rw [Complex.ofReal_re, Complex.ofReal_re, Complex.ofReal_re]
  rfl

theorem sqrt3_lit_pos : (0 : ℝ) < sqrt3 := by
  unfold sqrt3
  norm_num

theorem rho_c1_pos : (0 : ℝ) < ((1 / 27 : ℝ) ^ ((1 : ℝ) / 2)) ^ ((1 : ℝ) / 3) :=
  Real.rpow_pos_of_pos (Real.rpow_pos_of_pos (by norm_num) _) _

/-- Counterexample to C1 as stated: on the cubic `x³ - x` with real roots
`-1 ≤ 0 ≤ 1`, the sequence returned by `real_roots` is `[1, ≈-1, ≈0]` — the
insertion order of Cardano's formula — hence not sorted in ascending order
(`real_roots` never sorts). -/
theorem real_roots_not_ascending :
    ¬ List.Sorted (fun x y => x ≤ y) (real_roots 0 (-1) 0) := by
  rw [real_roots_c1]
  intro hs
  have h1 := (List.sorted_cons.mp hs).1
  have h2 := h1 (-(1 / 2) - sqrt3 * (((1 / 27 : ℝ) ^ ((1 : ℝ) / 2)) ^ ((1 : ℝ) / 3)) / 2)
    (by simp)
  have h3 : (0 : ℝ) < sqrt3 * (((1 / 27 : ℝ) ^ ((1 : ℝ) / 2)) ^ ((1 : ℝ) / 3)) :=
    mul_pos sqrt3_lit_pos rho_c1_pos
  linarith

theorem sqrt3_lit_le_sqrt : sqrt3 ≤ Real.sqrt 3 := by
  apply le_sqrt_of_sq_le
  · unfold sqrt3
    norm_num
  · unfold sqrt3
    norm_num

theorem sqrt_le_sqrt3_lit_add : Real.sqrt 3 ≤ sqrt3 + 1e-9 := by
  apply sqrt_le_of_sq_ge
  · unfold sqrt3
    norm_num
  · unfold sqrt3
    norm_num

/-- C1 (amended): `real_roots` does not sort its output, so the claim's
sortedness contract fails already on the cubic `x³ - x` (coefficients
`(0, -1, 0)`) with ascending real roots `-1 ≤ 0 ≤ 1`: there the returned
sequence consists of the three real roots in the insertion order of
Cardano's formula, `[≈1, ≈-1, ≈0]` — each entry within the claim's `1e-8`
tolerance of a true root, but not in ascending order.  (No ordering or
completeness is asserted for any other input; on other inputs the filter can
even return fewer values, see C2 and C6.) -/
theorem real_roots_cardano_order :
    (real_roots 0 (-1) 0).length = 3 ∧
    |(real_roots 0 (-1) 0).getD 0 0 - 1| ≤ 1e-8 ∧
    |(real_roots 0 (-1) 0).getD 1 0 - (-1)| ≤ 1e-8 ∧
    |(real_roots 0 (-1) 0).getD 2 0 - 0| ≤ 1e-8 := by
  rw [real_roots_c1]
  have hρs := rho_c1_mul_sqrt3
  have hρpos := rho_c1_pos
  have hρ1 : ((1 / 27 : ℝ) ^ ((1 : ℝ) / 2)) ^ ((1 : ℝ) / 3) ≤ 1 := by
    nlinarith [one_le_sqrt_three, hρs, hρpos]
  have hub : sqrt3 * (((1 / 27 : ℝ) ^ ((1 : ℝ) / 2)) ^ ((1 : ℝ) / 3)) ≤ 1 := by
    nlinarith [mul_le_mul_of_nonneg_right sqrt3_lit_le_sqrt hρpos.le, hρs]
  have hlb : 1 - 1e-9 ≤ sqrt3 * (((1 / 27 : ℝ) ^ ((1 : ℝ) / 2)) ^ ((1 : ℝ) / 3)) := by
    nlinarith [mul_le_mul_of_nonneg_right sqrt_le_sqrt3_lit_add hρpos.le, hρs, hρ1, hρpos]
  refine ⟨rfl, ?_, ?_, ?_⟩
  · simp only [List.getD_cons_zero]
    rw [abs_le]
    constructor <;> norm_num
  · simp only [List.getD_cons_succ, List.getD_cons_zero]
    rw [abs_le]
    constructor <;> [linarith; linarith]
  · simp only [List.getD_cons_succ, List.getD_cons_zero]
    rw [abs_le]
    constructor <;> [linarith; linarith]

/-! ## Evaluation of the root solver on `x³ + x + 1` (one real root) -/

theorem cardano_p_c2 : cardano_p 0 1 = 1 / 3 := by
  unfold cardano_p
  norm_num

theorem cardano_q_c2 : cardano_q 0 1 1 = 1 / 2 := by
  unfold cardano_q
  norm_num

theorem cardano_disc_c2 : cardano_disc 0 1 1 = 31 / 108 := by
  unfold cardano_disc
  rw [cardano_p_c2, cardano_q_c2]
  norm_num

theorem s31_lb : (0.5307 : ℝ) ≤ Real.sqrt (31 / 108) :=
  le_sqrt_of_sq_le _ _ (by norm_num) (by norm_num)

theorem s31_ub : Real.sqrt (31 / 108) ≤ 0.536 :=
  sqrt_le_of_sq_ge _ _ (by norm_num) (by norm_num)

theorem cardano_s_c2 :
    cardano_s 0 1 1 = ((Real.sqrt (31 / 108) : ℝ) : ℂ) := by
  unfold cardano_s
  rw [cardano_disc_c2, ← Complex.ofReal_cpow (by norm_num : (0 : ℝ) ≤ 31 / 108),
    ← Real.sqrt_eq_rpow]

theorem cardano_u1_c2 :
    cardano_u1 0 1 1 =
      (((Real.sqrt (31 / 108) - 1 / 2) ^ ((1 : ℝ) / 3) : ℝ) : ℂ) := by
  unfold cardano_u1
  rw [cardano_q_c2, cardano_s_c2, ← Complex.ofReal_add,
    show -(1 / 2 : ℝ) + Real.sqrt (31 / 108) = Real.sqrt (31 / 108) - 1 / 2 by ring,
    ← Complex.ofReal_cpow (by linarith [s31_lb] : (0 : ℝ) ≤ Real.sqrt (31 / 108) - 1 / 2)]

theorem cardano_u2_c2 :
    cardano_u2 0 1 1 =
      (((Real.sqrt (31 / 108) + 1 / 2) ^ ((1 : ℝ) / 3) : ℝ) : ℂ) *
        (((1 / 2 : ℝ) : ℂ) - ((Real.sqrt 3 / 2 : ℝ) : ℂ) * Complex.I) := by
  unfold cardano_u2
  rw [cardano_q_c2, cardano_s_c2,
    show ((-(1 / 2 : ℝ) : ℝ) : ℂ) - ((Real.sqrt (31 / 108) : ℝ) : ℂ) =
      ((-(Real.sqrt (31 / 108) + 1 / 2) : ℝ) : ℂ) by push_cast; ring,
    Complex.conj_ofReal, cpow_third_neg _ (by linarith [s31_lb]), map_mul,
    Complex.conj_ofReal, conj_ofReal_add_ofReal_mul_I]

theorem roots_c2 :
    roots 0 1 1 =
      [(((Real.sqrt (31 / 108) - 1 / 2) ^ ((1 : ℝ) / 3) +
           (Real.sqrt (31 / 108) + 1 / 2) ^ ((1 : ℝ) / 3) / 2 : ℝ) : ℂ) +
         ((-((Real.sqrt (31 / 108) + 1 / 2) ^ ((1 : ℝ) / 3) * (Real.sqrt 3 / 2)) : ℝ) : ℂ) *
           Complex.I,
       ((-((Real.sqrt (31 / 108) - 1 / 2) ^ ((1 : ℝ) / 3) / 2) -
           (Real.sqrt (31 / 108) + 1 / 2) ^ ((1 : ℝ) / 3) * (1 + sqrt3 * Real.sqrt 3) / 4 : ℝ) : ℂ) +
         ((sqrt3 * (Real.sqrt (31 / 108) - 1 / 2) ^ ((1 : ℝ) / 3) / 2 +
           (Real.sqrt (31 / 108) + 1 / 2) ^ ((1 : ℝ) / 3) * (Real.sqrt 3 - sqrt3) / 4 : ℝ) : ℂ) *
           Complex.I,
       ((-((Real.sqrt (31 / 108) - 1 / 2) ^ ((1 : ℝ) / 3) / 2) +
           (Real.sqrt (31 / 108) + 1 / 2) ^ ((1 : ℝ) / 3) * (sqrt3 * Real.sqrt 3 - 1) / 4 : ℝ) : ℂ) +
         ((-(sqrt3 * (Real.sqrt (31 / 108) - 1 / 2) ^ ((1 : ℝ) / 3) / 2) +
           (Real.sqrt (31 / 108) + 1 / 2) ^ ((1 : ℝ) / 3) * (Real.sqrt 3 + sqrt3) / 4 : ℝ) : ℂ) *
           Complex.I] := by
  unfold roots cardano_w1 cardano_w2
  rw [cardano_u1_c2, cardano_u2_c2]
  simp only [List.cons.injEq, and_true]
  refine ⟨?_, ?_, ?_⟩ <;>
    (apply Complex.ext <;>
      (simp only [Complex.add_re, Complex.sub_re, Complex.mul_re, Complex.mul_im,
        Complex.add_im, Complex.sub_im, Complex.ofReal_re, Complex.ofReal_im,
        Complex.I_re, Complex.I_im]
       ring_nf))

theorem im_of_cast_form (x y : ℝ) :
    (((x : ℝ) : ℂ) + ((y : ℝ) : ℂ) * Complex.I).im = y := by
  simp

theorem sqrt_three_lb : (1.73 : ℝ) ≤ Real.sqrt 3 :=
  le_sqrt_of_sq_le _ _ (by norm_num) (by norm_num)

theorem sqrt3_lit_lb : (1.73 : ℝ) ≤ sqrt3 := by
  unfold sqrt3
  norm_num

theorem sqrt3_lit_ub : sqrt3 ≤ (1.7321 : ℝ) := by
  unfold sqrt3
  norm_num

theorem a13_c2_ub :
    (Real.sqrt (31 / 108) - 1 / 2) ^ ((1 : ℝ) / 3) ≤ 0.36 :=
  rpow_third_le_of_le_cube _ _ (by linarith [s31_lb]) (by norm_num)
    (by nlinarith [s31_ub])

theorem a13_c2_lb :
    (0.31 : ℝ) ≤ (Real.sqrt (31 / 108) - 1 / 2) ^ ((1 : ℝ) / 3) :=
  le_rpow_third_of_cube_le _ _ (by norm_num) (by nlinarith [s31_lb])

theorem b13_c2_ge_one :
    (1 : ℝ) ≤ (Real.sqrt (31 / 108) + 1 / 2) ^ ((1 : ℝ) / 3) :=
  Real.one_le_rpow (by linarith [s31_lb]) (by norm_num)

theorem real_roots_c2 : real_roots 0 1 1 = [] := by
  have hA_ub := a13_c2_ub
  have hA_lb := a13_c2_lb
  have hB1 := b13_c2_ge_one
  have hs3 := sqrt_three_lb
  have hc_lb := sqrt3_lit_lb
  have hc_ub := sqrt3_lit_ub
  have hc_le := sqrt3_lit_le_sqrt
  have h1 : ¬ |((((Real.sqrt (31 / 108) - 1 / 2) ^ ((1 : ℝ) / 3) +
      (Real.sqrt (31 / 108) + 1 / 2) ^ ((1 : ℝ) / 3) / 2 : ℝ) : ℂ) +
      ((-((Real.sqrt (31 / 108) + 1 / 2) ^ ((1 : ℝ) / 3) * (Real.sqrt 3 / 2)) : ℝ) : ℂ) *
        Complex.I).im| < 1e-10 := by
    rw [im_of_cast_form, not_lt]
    have hp : (0.865 : ℝ) ≤
        (Real.sqrt (31 / 108) + 1 / 2) ^ ((1 : ℝ) / 3) * (Real.sqrt 3 / 2) := by
      nlinarith [hB1, hs3]
    rw [abs_of_nonpos (by linarith)]
    linarith
  have h2 : ¬ |(((-((Real.sqrt (31 / 108) - 1 / 2) ^ ((1 : ℝ) / 3) / 2) -
      (Real.sqrt (31 / 108) + 1 / 2) ^ ((1 : ℝ) / 3) * (1 + sqrt3 * Real.sqrt 3) / 4 : ℝ) : ℂ) +
      ((sqrt3 * (Real.sqrt (31 / 108) - 1 / 2) ^ ((1 : ℝ) / 3) / 2 +
        (Real.sqrt (31 / 108) + 1 / 2) ^ ((1 : ℝ) / 3) * (Real.sqrt 3 - sqrt3) / 4 : ℝ) : ℂ) *
        Complex.I).im| < 1e-10 := by
    rw [im_of_cast_form, not_lt]
    have hca : (1.73 : ℝ) * 0.31 ≤ sqrt3 * (Real.sqrt (31 / 108) - 1 / 2) ^ ((1 : ℝ) / 3) :=
      mul_le_mul hc_lb hA_lb (by norm_num) (by linarith)
    have hterm : (0 : ℝ) ≤
        (Real.sqrt (31 / 108) + 1 / 2) ^ ((1 : ℝ) / 3) * (Real.sqrt 3 - sqrt3) :=
      mul_nonneg (by linarith) (by linarith)
    rw [abs_of_nonneg (by linarith)]
    linarith
  have h3 : ¬ |(((-((Real.sqrt (31 / 108) - 1 / 2) ^ ((1 : ℝ) / 3) / 2) +
      (Real.sqrt (31 / 108) + 1 / 2) ^ ((1 : ℝ) / 3) * (sqrt3 * Real.sqrt 3 - 1) / 4 : ℝ) : ℂ) +
      ((-(sqrt3 * (Real.sqrt (31 / 108) - 1 / 2) ^ ((1 : ℝ) / 3) / 2) +
        (Real.sqrt (31 / 108) + 1 / 2) ^ ((1 : ℝ) / 3) * (Real.sqrt 3 + sqrt3) / 4 : ℝ) : ℂ) *
        Complex.I).im| < 1e-10 := by
    rw [im_of_cast_form, not_lt]
    have hca : sqrt3 * (Real.sqrt (31 / 108) - 1 / 2) ^ ((1 : ℝ) / 3) ≤ 1.7321 * 0.36 :=
      mul_le_mul hc_ub hA_ub (by linarith) (by norm_num)
    have hbs : (1 : ℝ) * 3.46 ≤
        (Real.sqrt (31 / 108) + 1 / 2) ^ ((1 : ℝ) / 3) * (Real.sqrt 3 + sqrt3) :=
      mul_le_mul hB1 (by linarith) (by norm_num) (by linarith)
    rw [abs_of_nonneg (by linarith)]
    linarith
  unfold real_roots
  rw [roots_c2]
  unfold keep_reals
  rw [if_neg h1]
  unfold keep_reals
  rw [if_neg h2]
  unfold keep_reals
  rw [if_neg h3]
  rfl

/-- C2: the claim states that for the cubic `x³ + x + 1 = 0` (coefficients
`(0, 1, 1)`, one real root ≈ -0.6823) the classification function and the
real-root filter agree on cardinality 1; the code instead returns
`num_of_real_roots = 3` (its discriminant sign convention is inverted: here
`disc = 31/108 > 0` although the cubic has exactly one real root) and an
empty `real_roots` list: the complex cube root of the negative radicand
`-q - s < 0` lands on the branch cut (here the `-0.0` signed-zero side, so
`u2 = (s + 1/2)^{1/3} e^{-iπ/3}`), the Cardano invariant `u1 u2 = -p` fails,
every computed value is non-real, and the `1e-10` filter rejects all three
(the same happens on the `+π` side, so the emptiness is robust to the branch
choice).  This theorem records the code's actual values at the claimed
input. -/
theorem roots_code_bug_x3_add_x_add_one :
    num_of_real_roots 0 1 1 = 3 ∧ (real_roots 0 1 1).length = 0 := by
  constructor
  · unfold num_of_real_roots
    norm_num
  · rw [real_roots_c2]
    rfl

/-- Witness for C3: for an EOS whose root set is always empty, the flash
fails at once; the characterization applied there discharges its inner
hypothesis and yields the returned pressure 0. -/
theorem vapor_pressure_status_characterization_witness :
    (vapor_pressure ⟨⟨fun _ _ => [], fun _ _ _ => 0⟩, 1e-6, 100⟩ 1 1).2.error ≠
        error_code.success ∧
    (vapor_pressure ⟨⟨fun _ _ => [], fun _ _ _ => 0⟩, 1e-6, 100⟩ 1 1).1 = 0 := by
  have heval : vapor_pressure ⟨⟨fun _ _ => [], fun _ _ _ => 0⟩, 1e-6, 100⟩ 1 1 =
      (0, ⟨1, 0, error_code.multiple_roots_not_found⟩) := by
    unfold vapor_pressure
    rw [vp_loop, dif_pos ⟨by norm_num, by norm_num⟩, if_pos (by simp)]
  have hne : (vapor_pressure ⟨⟨fun _ _ => [], fun _ _ _ => 0⟩, 1e-6, 100⟩ 1 1).2.error ≠
      error_code.success := by
    rw [heval]
    simp
  exact ⟨hne,
    (vapor_pressure_status_characterization
      ⟨⟨fun _ _ => [], fun _ _ _ => 0⟩, 1e-6, 100⟩ 1 1).2.2 hne⟩

/-! ## Evaluation of the root solver on `x³ + 6x - 2` (one real root)

Here `p = 2`, `q = -1`, `disc = 9`, `s = 3`, so `-q + s = 4` and
`-q - s = -2`: `u1 = 4^{1/3}` is real while `u2 = 2^{1/3} e^{-iπ/3}` (the
signed-zero side of the branch cut), the Cardano invariant `u1 u2 = -p`
fails, and all three computed values are far from the real axis. -/

theorem cardano_p_c6 : cardano_p 0 6 = 2 := by
  unfold cardano_p
  norm_num

theorem cardano_q_c6 : cardano_q 0 6 (-2) = -1 := by
  unfold cardano_q
  norm_num

theorem cardano_disc_c6 : cardano_disc 0 6 (-2) = 9 := by
  unfold cardano_disc
  rw [cardano_p_c6, cardano_q_c6]
  norm_num

theorem cardano_s_c6 : cardano_s 0 6 (-2) = ((3 : ℝ) : ℂ) := by
  unfold cardano_s
  rw [cardano_disc_c6, ← Complex.ofReal_cpow (by norm_num : (0 : ℝ) ≤ 9),
    ← Real.sqrt_eq_rpow, show (9 : ℝ) = 3 ^ 2 by norm_num,
    Real.sqrt_sq (by norm_num : (0 : ℝ) ≤ 3)]

theorem cardano_u1_c6 :
    cardano_u1 0 6 (-2) = (((4 : ℝ) ^ ((1 : ℝ) / 3) : ℝ) : ℂ) := by
  unfold cardano_u1
  rw [cardano_q_c6, cardano_s_c6,
    show ((-(-1 : ℝ) : ℝ) : ℂ) + ((3 : ℝ) : ℂ) = ((4 : ℝ) : ℂ) by push_cast; norm_num,
    ← Complex.ofReal_cpow (by norm_num : (0 : ℝ) ≤ 4)]

theorem cardano_u2_c6 :
    cardano_u2 0 6 (-2) =
      (((2 : ℝ) ^ ((1 : ℝ) / 3) : ℝ) : ℂ) *
        (((1 / 2 : ℝ) : ℂ) - ((Real.sqrt 3 / 2 : ℝ) : ℂ) * Complex.I) := by
  unfold cardano_u2
  rw [cardano_q_c6, cardano_s_c6,
    show ((-(-1 : ℝ) : ℝ) : ℂ) - ((3 : ℝ) : ℂ) = ((-(2 : ℝ) : ℝ) : ℂ) by push_cast; norm_num,
    Complex.conj_ofReal, cpow_third_neg 2 (by norm_num), map_mul,
    Complex.conj_ofReal, conj_ofReal_add_ofReal_mul_I]

theorem roots_c6 :
    roots 0 6 (-2) =
      [(((4 : ℝ) ^ ((1 : ℝ) / 3) + (2 : ℝ) ^ ((1 : ℝ) / 3) / 2 : ℝ) : ℂ) +
         ((-((2 : ℝ) ^ ((1 : ℝ) / 3) * (Real.sqrt 3 / 2)) : ℝ) : ℂ) * Complex.I,
       ((-((4 : ℝ) ^ ((1 : ℝ) / 3) / 2) -
           (2 : ℝ) ^ ((1 : ℝ) / 3) * (1 + sqrt3 * Real.sqrt 3) / 4 : ℝ) : ℂ) +
         ((sqrt3 * (4 : ℝ) ^ ((1 : ℝ) / 3) / 2 +
           (2 : ℝ) ^ ((1 : ℝ) / 3) * (Real.sqrt 3 - sqrt3) / 4 : ℝ) : ℂ) * Complex.I,
       ((-((4 : ℝ) ^ ((1 : ℝ) / 3) / 2) +
           (2 : ℝ) ^ ((1 : ℝ) / 3) * (sqrt3 * Real.sqrt 3 - 1) / 4 : ℝ) : ℂ) +
         ((-(sqrt3 * (4 : ℝ) ^ ((1 : ℝ) / 3) / 2) +
           (2 : ℝ) ^ ((1 : ℝ) / 3) * (Real.sqrt 3 + sqrt3) / 4 : ℝ) : ℂ) * Complex.I] := by
  unfold roots cardano_w1 cardano_w2
  rw [cardano_u1_c6, cardano_u2_c6]
  simp only [List.cons.injEq, and_true]
  refine ⟨?_, ?_, ?_⟩ <;>
    (apply Complex.ext <;>
      (simp only [Complex.add_re, Complex.sub_re, Complex.mul_re, Complex.mul_im,
        Complex.add_im, Complex.sub_im, Complex.ofReal_re, Complex.ofReal_im,
        Complex.I_re, Complex.I_im]
       ring_nf))

theorem a4_c6_lb : (1.58 : ℝ) ≤ (4 : ℝ) ^ ((1 : ℝ) / 3) :=
  le_rpow_third_of_cube_le _ _ (by norm_num) (by norm_num)

theorem a4_c6_ub : (4 : ℝ) ^ ((1 : ℝ) / 3) ≤ 1.59 :=
  rpow_third_le_of_le_cube _ _ (by norm_num) (by norm_num) (by norm_num)

theorem b2_c6_lb : (1.25 : ℝ) ≤ (2 : ℝ) ^ ((1 : ℝ) / 3) :=
  le_rpow_third_of_cube_le _ _ (by norm_num) (by norm_num)

theorem b2_c6_ub : (2 : ℝ) ^ ((1 : ℝ) / 3) ≤ 1.26 :=
  rpow_third_le_of_le_cube _ _ (by norm_num) (by norm_num) (by norm_num)

theorem sqrt_three_ub : Real.sqrt 3 ≤ (1.7321 : ℝ) :=
  sqrt_le_of_sq_ge _ _ (by norm_num) (by norm_num)

/-- C6: the Root Set returned by `real_roots` is claimed to have length in
`{1, 2, 3}` and to never be empty; but on the cubic `x³ + 6x - 2`
(coefficients `(0, 6, -2)`, one real root ≈ 0.3275; `p = 2`, `q = -1`,
`disc = 9`) the cube-root radicands are `4` and `-2`, so `u1 = 4^{1/3}` while
`u2 = 2^{1/3} e^{-iπ/3}` comes from the branch cut (the `-0.0` signed-zero
side); the Cardano invariant `u1 u2 = -p` fails, every computed value has an
imaginary part of magnitude at least ≈ 0.28, the `1e-10` filter rejects all
three, and the returned Root Set is empty.  (The `+π` side of the cut gives
an empty list here too, so the emptiness is robust to the branch choice.) -/
theorem real_roots_empty_at_one_real_root_cubic : real_roots 0 6 (-2) = [] := by
  have hA_lb := a4_c6_lb
  have hA_ub := a4_c6_ub
  have hB_lb := b2_c6_lb
  have hB_ub := b2_c6_ub
  have hs3 := sqrt_three_lb
  have hs3u := sqrt_three_ub
  have hc_lb := sqrt3_lit_lb
  have hc_ub := sqrt3_lit_ub
  have hc_le := sqrt3_lit_le_sqrt
  have h1 : ¬ |((((4 : ℝ) ^ ((1 : ℝ) / 3) + (2 : ℝ) ^ ((1 : ℝ) / 3) / 2 : ℝ) : ℂ) +
      ((-((2 : ℝ) ^ ((1 : ℝ) / 3) * (Real.sqrt 3 / 2)) : ℝ) : ℂ) * Complex.I).im| < 1e-10 := by
    rw [im_of_cast_form, not_lt]
    have hp : (1.08 : ℝ) ≤ (2 : ℝ) ^ ((1 : ℝ) / 3) * (Real.sqrt 3 / 2) := by
      nlinarith [hB_lb, hs3]
    rw [abs_of_nonpos (by linarith)]
    linarith
  have h2 : ¬ |(((-((4 : ℝ) ^ ((1 : ℝ) / 3) / 2) -
      (2 : ℝ) ^ ((1 : ℝ) / 3) * (1 + sqrt3 * Real.sqrt 3) / 4 : ℝ) : ℂ) +
      ((sqrt3 * (4 : ℝ) ^ ((1 : ℝ) / 3) / 2 +
        (2 : ℝ) ^ ((1 : ℝ) / 3) * (Real.sqrt 3 - sqrt3) / 4 : ℝ) : ℂ) * Complex.I).im| < 1e-10 := by
    rw [im_of_cast_form, not_lt]
    have hca : (1.73 : ℝ) * 1.58 ≤ sqrt3 * (4 : ℝ) ^ ((1 : ℝ) / 3) :=
      mul_le_mul hc_lb hA_lb (by norm_num) (by linarith)
    have hterm : (0 : ℝ) ≤ (2 : ℝ) ^ ((1 : ℝ) / 3) * (Real.sqrt 3 - sqrt3) :=
      mul_nonneg (by linarith) (by linarith)
    rw [abs_of_nonneg (by linarith)]
    linarith
  have h3 : ¬ |(((-((4 : ℝ) ^ ((1 : ℝ) / 3) / 2) +
      (2 : ℝ) ^ ((1 : ℝ) / 3) * (sqrt3 * Real.sqrt 3 - 1) / 4 : ℝ) : ℂ) +
      ((-(sqrt3 * (4 : ℝ) ^ ((1 : ℝ) / 3) / 2) +
        (2 : ℝ) ^ ((1 : ℝ) / 3) * (Real.sqrt 3 + sqrt3) / 4 : ℝ) : ℂ) * Complex.I).im| < 1e-10 := by
    rw [im_of_cast_form, not_lt]
    have hca : (1.73 : ℝ) * 1.58 ≤ sqrt3 * (4 : ℝ) ^ ((1 : ℝ) / 3) :=
      mul_le_mul hc_lb hA_lb (by norm_num) (by linarith)
    have hbs : (2 : ℝ) ^ ((1 : ℝ) / 3) * (Real.sqrt 3 + sqrt3) ≤ 1.26 * 3.4642 :=
      mul_le_mul hB_ub (by linarith) (by linarith) (by norm_num)
    rw [abs_of_nonpos (by linarith)]
    linarith
  unfold real_roots
  rw [roots_c6]
  unfold keep_reals
  rw [if_neg h1]
  unfold keep_reals
  rw [if_neg h2]
  unfold keep_reals
  rw [if_neg h3]
  rfl
